import Mathlib

/-
Verification of the document ingestion and entity-extraction pipeline of the
ai-resume-enhancer-generator repository.

The development shallowly embeds the relevant source functions:
  * src/services/document_parser.py : extract_content, _extract_from_pdf,
    _extract_from_docx, _extract_from_txt, extract_entities,
    _process_ner_results, _process_spacy_results, _extract_with_regex
  * src/utils/validators.py : validate_file_upload, validate_content_extraction

Text is modelled as Lean String (lists of characters); bytes as Nat.
Regular expressions from the source are embedded as explicit backtracking
matchers that follow the left-to-right, leftmost, greedy-with-backtracking
semantics of the re module on the concrete patterns appearing in the source.
Exceptions are modelled with Except; the external recognition models
(HuggingFace NER pipeline, spaCy) are modelled as abstract inputs that are
unavailable, throwing, or returning a list of tagged spans.
-/

namespace ResumeParser

/-! ## Basic character and string utilities (re module semantics) -/

/-- Whitespace characters recognised by the re module class \s (ASCII range). -/
def pySpace (c : Char) : Bool :=
  c = ' ' || c = '\t' || c = '\n' || c = '\r' || c = '\x0b' || c = '\x0c'

/-- str.strip() with no arguments: remove leading and trailing whitespace. -/
def pyStrip (l : List Char) : List Char :=
  ((l.dropWhile pySpace).reverse.dropWhile pySpace).reverse

/-- Substring containment, the semantics of the `in` operator on str. -/
def containsSub (needle : List Char) : List Char → Bool
  | [] => needle.isEmpty
  | c :: t => needle.isPrefixOf (c :: t) || containsSub needle t

/-- String-level substring containment. -/
def strContains (needle hay : String) : Bool :=
  containsSub needle.data hay.data

/-- str.lower() over the ASCII range, written as a structural map over the
character list so that it evaluates inside the kernel. -/
def strToLower (s : String) : String := (s.data.map Char.toLower).asString

/-- Word characters for the \b boundary assertion: [A-Za-z0-9_]. -/
def isWordChar (c : Char) : Bool := c.isAlpha || c.isDigit || c = '_'

def isWordO : Option Char → Bool
  | none => false
  | some c => isWordChar c

/-- The \b assertion between a preceding and a current character. -/
def atBoundary (prev cur : Option Char) : Bool := isWordO prev != isWordO cur

/-! ## The entity accumulator

The source accumulates extraction results in a nested dict; we model the
fields touched by the pipeline as a flat structure.  A missing dict key
(personal name, email, phone) is modelled as none. -/

structure ExperienceEntry where
  role : String
  company : String
deriving DecidableEq, Repr

@[ext]
structure Entities where
  name : Option String := none
  email : Option String := none
  phone : Option String := none
  skills : List String := []
  experience : List ExperienceEntry := []
  education : List String := []
  projects : List String := []
  organizations : List String := []
  locations : List String := []
deriving DecidableEq, Repr

/-! ## Learned recognition sources (HuggingFace NER, spaCy) -/

/-- One aggregated span returned by the HuggingFace NER pipeline. -/
structure NerEntity where
  entity_group : String
  word : String
deriving DecidableEq, Repr

/-- One entity returned by the spaCy pipeline. -/
structure SpacyEnt where
  label : String
  text : String
deriving DecidableEq, Repr

/-- One step of _process_ner_results: PER fills a missing name, ORG and LOC
are appended to their lists, anything else is ignored. -/
def processNerOne (e : Entities) (ent : NerEntity) : Entities :=
  if ent.entity_group = "PER" then
    match e.name with
    | none => { e with name := some ent.word }
    | some _ => e
  else if ent.entity_group = "ORG" then
    { e with organizations := e.organizations ++ [ent.word] }
  else if ent.entity_group = "LOC" then
    { e with locations := e.locations ++ [ent.word] }
  else e

/-- _process_ner_results from document_parser.py. -/
def process_ner_results (rs : List NerEntity) (e : Entities) : Entities :=
  rs.foldl processNerOne e

/-- One step of _process_spacy_results: PERSON fills a missing name, ORG is
appended to organizations, GPE and LOC to locations. -/
def processSpacyOne (e : Entities) (ent : SpacyEnt) : Entities :=
  if ent.label = "PERSON" then
    match e.name with
    | none => { e with name := some ent.text }
    | some _ => e
  else if ent.label = "ORG" then
    { e with organizations := e.organizations ++ [ent.text] }
  else if ent.label = "GPE" || ent.label = "LOC" then
    { e with locations := e.locations ++ [ent.text] }
  else e

/-- _process_spacy_results from document_parser.py. -/
def process_spacy_results (rs : List SpacyEnt) (e : Entities) : Entities :=
  rs.foldl processSpacyOne e

/-! ## Keyword dictionaries of _extract_with_regex -/

/-- skill_keywords from _extract_with_regex, in source order. -/
def skill_keywords : List String :=
  ["Python", "Java", "JavaScript", "React", "Node.js", "SQL", "MongoDB",
   "Machine Learning", "Data Science", "AI", "TensorFlow", "PyTorch",
   "AWS", "Docker", "Kubernetes", "Git", "Linux", "HTML", "CSS",
   "Project Management", "Leadership", "Communication", "Problem Solving",
   "Teamwork", "Critical Thinking", "Time Management"]

/-- education_keywords from _extract_with_regex, in source order. -/
def education_keywords : List String :=
  ["Bachelor", "Master", "PhD", "University", "College", "Institute",
   "Computer Science", "Engineering", "Business", "Mathematics",
   "B.S.", "M.S.", "MBA", "B.A.", "M.A."]

/-- The skills found in a text: keywords whose lower-cased form occurs as a
substring of the lower-cased text, kept in dictionary order. -/
def foundSkills (text : String) : List String :=
  skill_keywords.filter (fun k => strContains (strToLower k) (strToLower text))

/-- The education keywords found in a text, same mechanism. -/
def foundEducation (text : String) : List String :=
  education_keywords.filter (fun k => strContains (strToLower k) (strToLower text))

/-- Duplicate removal keeping first occurrences; models list(set(...)) on the
skills list.  The set iteration order of the interpreter is unspecified, so
theorems about skills are stated up to membership where order could matter;
the found skill list is in fact duplicate-free, so no element is dropped. -/
def removeDups (l : List String) : List String :=
  l.foldl (fun acc x => if x ∈ acc then acc else acc ++ [x]) []

/-! ## A generic scanner for re.findall / re.search

A matcher takes the character preceding the current position (for \b) and the
remaining text, and returns the captured value, the last consumed character
and the rest of the text.  Scanning tries every position left to right and
resumes after the end of a match, exactly like findall.  The fuel argument
only bounds the recursion; text length plus one is always sufficient because
every step consumes at least one character. -/

structure MRes (α : Type) where
  val : α
  lastc : Char
  rest : List Char

def scanAll {α : Type} (m : Option Char → List Char → Option (MRes α)) :
    Nat → Option Char → List Char → List α
  | 0, _, _ => []
  | _ + 1, _, [] => []
  | fuel + 1, prev, c :: t =>
    match m prev (c :: t) with
    | some r => r.val :: scanAll m fuel (some r.lastc) r.rest
    | none => scanAll m fuel (some c) t

def findAll {α : Type} (m : Option Char → List Char → Option (MRes α))
    (s : List Char) : List α :=
  scanAll m (s.length + 1) none s

/-! ## The email regex

Pattern: \b[A-Za-z0-9._%+-]+@[A-Za-z0-9.-]+\.[A-Z|a-z]\x7b2,\x7d\b with
re.IGNORECASE (the flag is irrelevant: the classes already cover both cases).
Since the at sign is not in the local-part class and the dot is in the domain
class, backtracking reduces to: maximal local run directly followed by the at
sign, then the domain run is split at a dot position, tried right to left,
with the top-level-domain run shortened until the final \b holds. -/

def emailLocalChar (c : Char) : Bool :=
  c.isAlpha || c.isDigit || c = '.' || c = '_' || c = '%' || c = '+' || c = '-'

def emailDomChar (c : Char) : Bool :=
  c.isAlpha || c.isDigit || c = '.' || c = '-'

def emailTldChar (c : Char) : Bool := c.isAlpha || c = '|'

/-- Try top-level-domain lengths n, n-1, ..., 2 over the maximal run, checking
the trailing \b; returns the consumed part, its last character, and the rest. -/
def tldTry (run restC : List Char) : Nat → Option (List Char × Char × List Char)
  | 0 => none
  | 1 => none
  | m + 2 =>
    let taken := run.take (m + 2)
    let rest := run.drop (m + 2) ++ restC
    match taken.getLast? with
    | some lc =>
      if atBoundary (some lc) rest.head? then some (taken, lc, rest)
      else tldTry run restC (m + 1)
    | none => none

/-- Try domain lengths k, k-1, ..., 1: the character right after the consumed
domain part must be a literal dot inside the maximal domain run. -/
def domTry (dom r3 loc : List Char) : Nat → Option (MRes String)
  | 0 => none
  | k + 1 =>
    let attempt : Option (MRes String) :=
      if dom.get? (k + 1) = some '.' then
        let tsrc := dom.drop (k + 2) ++ r3
        let trun := tsrc.takeWhile emailTldChar
        match tldTry trun (tsrc.dropWhile emailTldChar) trun.length with
        | some (taken, lc, rest) =>
          some ⟨(loc ++ '@' :: dom.take (k + 1) ++ '.' :: taken).asString, lc, rest⟩
        | none => none
      else none
    match attempt with
    | some r => some r
    | none => domTry dom r3 loc k

/-- Attempt the email pattern at the current position. -/
def matchEmailAt (prev : Option Char) (s : List Char) : Option (MRes String) :=
  if atBoundary prev s.head? then
    let loc := s.takeWhile emailLocalChar
    if loc.isEmpty then none
    else
      match s.dropWhile emailLocalChar with
      | '@' :: r2 =>
        let dom := r2.takeWhile emailDomChar
        domTry dom (r2.dropWhile emailDomChar) loc (dom.length - 1)
      | _ => none
  else none

/-- All email matches of a text, leftmost first, non-overlapping; models
re.findall of the email pattern. -/
def findEmails (text : List Char) : List String := findAll matchEmailAt text

/-! ## The phone regexes of _extract_with_regex

Three patterns are tried in order; the first one with any match wins.
Optional elements are explored present-first, leftmost element backtracking
last, exactly like the re module; we enumerate the candidates of each
optional in that order and take the first full success. -/

/-- Candidates of an optional single-character element, present first. -/
def opt1 (p : Char → Bool) (s : List Char) : List (List Char × List Char) :=
  match s with
  | c :: t => if p c then [([c], t), ([], c :: t)] else [([], c :: t)]
  | [] => [([], [])]

/-- The class [-\s]. -/
def isPhoneSep (c : Char) : Bool := c = '-' || pySpace c

/-- Exactly n digits. -/
def takeDigits : Nat → List Char → Option (List Char × List Char)
  | 0, s => some ([], s)
  | _ + 1, [] => none
  | n + 1, c :: t =>
    if c.isDigit then (takeDigits n t).map (fun dr => (c :: dr.1, dr.2)) else none

/-- Concatenation of the images of a function over a list, in order; the
candidate-enumeration combinator used by the phone matchers. -/
def flatMapL {α β : Type} (l : List α) (f : α → List β) : List β :=
  (l.map f).foldr (fun a b => a ++ b) []

/-- The shared tail \(?\d\x7b3\x7d\)?[-\s]?\d\x7b3\x7d[-\s]?\d\x7b4\x7d of the
first two phone patterns; returns the ten digits, the last consumed character
and the rest, for every backtracking branch in exploration order. -/
def phoneCore (s0 : List Char) : List (List Char × Char × List Char) :=
  flatMapL (opt1 (fun c => c = '(') s0) (fun p1 =>
    match takeDigits 3 p1.2 with
    | none => []
    | some (d1, s2) =>
      flatMapL (opt1 (fun c => c = ')') s2) (fun p2 =>
        flatMapL (opt1 isPhoneSep p2.2) (fun p3 =>
          match takeDigits 3 p3.2 with
          | none => []
          | some (d2, s5) =>
            flatMapL (opt1 isPhoneSep s5) (fun p4 =>
              match takeDigits 4 p4.2 with
              | none => []
              | some (d3, s7) => [(d1 ++ d2 ++ d3, d3.getLastD '0', s7)]))))

/-- Candidates of the prefix (\+?1?[-\s]?)? of phone pattern 1. -/
def phone1Heads (s : List Char) : List (List Char × List Char) :=
  flatMapL (opt1 (fun c => c = '+') s) (fun pr =>
    flatMapL (opt1 (fun c => c = '1') pr.2) (fun od =>
      (opt1 isPhoneSep od.2).map (fun sp => (pr.1 ++ od.1 ++ sp.1, sp.2))))

/-- Phone pattern 1; findall returns the four capture groups, which the source
joins, so the value is prefix plus the ten digits. -/
def matchPhone1At (_prev : Option Char) (s : List Char) : Option (MRes String) :=
  (flatMapL (phone1Heads s) (fun h =>
    (phoneCore h.2).map (fun r => MRes.mk (h.1 ++ r.1).asString r.2.1 r.2.2))).head?

/-- Candidates of the prefix group (\+?\d\x7b1,3\x7d[-\s]?)? of phone
pattern 2, present first, digit count greedy from three down to one. -/
def phone2Heads (s : List Char) : List (List Char × List Char) :=
  (flatMapL (opt1 (fun c => c = '+') s) (fun pr =>
    let run := pr.2.takeWhile (fun c => c.isDigit)
    let n := min 3 run.length
    flatMapL (List.range n) (fun i =>
      (opt1 isPhoneSep (pr.2.drop (n - i))).map
        (fun sp => (pr.1 ++ pr.2.take (n - i) ++ sp.1, sp.2)))))
  ++ [([], s)]

/-- Phone pattern 2; the single capture group is the prefix, so findall
returns only the prefix text (possibly empty). -/
def matchPhone2At (_prev : Option Char) (s : List Char) : Option (MRes String) :=
  (flatMapL (phone2Heads s) (fun h =>
    (phoneCore h.2).map (fun r => MRes.mk h.1.asString r.2.1 r.2.2))).head?

/-- Phone pattern 3: \b\d\x7b3\x7d[-\.]\d\x7b3\x7d[-\.]\d\x7b4\x7d\b, no
groups, so findall returns the whole match. -/
def matchPhone3At (prev : Option Char) (s : List Char) : Option (MRes String) :=
  if atBoundary prev s.head? then
    match takeDigits 3 s with
    | none => none
    | some (d1, r1) =>
      match r1 with
      | c1 :: r2 =>
        if c1 = '-' || c1 = '.' then
          match takeDigits 3 r2 with
          | none => none
          | some (d2, r3) =>
            match r3 with
            | c2 :: r4 =>
              if c2 = '-' || c2 = '.' then
                match takeDigits 4 r4 with
                | none => none
                | some (d3, r5) =>
                  if atBoundary (some (d3.getLastD '0')) r5.head? then
                    some ⟨(d1 ++ c1 :: d2 ++ c2 :: d3).asString, d3.getLastD '0', r5⟩
                  else none
              else none
            | [] => none
        else none
      | [] => none
  else none

/-- The phone extraction loop of _extract_with_regex: patterns tried in
order, first pattern with matches wins, value of its first match kept
(groups joined for pattern 1). -/
def phoneOf (text : List Char) : Option String :=
  match findAll matchPhone1At text with
  | p :: _ => some p
  | [] =>
    match findAll matchPhone2At text with
    | p :: _ => some p
    | [] =>
      match findAll matchPhone3At text with
      | p :: _ => some p
      | [] => none

/-! ## The experience regexes of _extract_with_regex

Pattern 1: (role alternation)\s+at\s+([A-Za-z0-9\s&]+)
Pattern 2: ([A-Za-z0-9\s&]+)\s*[-–](role alternation), both with re.IGNORECASE.
The role alternation is tried left to right; captures are the text as it
appears in the source string.  In pattern 1 the company class contains \s, so
when the greedy \s+ before the company leaves no class character, shrinking
it by one space still yields a match whose company capture is a single
space.  In pattern 2 the company class also contains every \s character, so
the dash must follow the maximal class run directly; a failed role match
cannot be rescued by backtracking (shedding a non-space class character
leaves a character the \s* cannot consume before the mandatory dash). -/

def expRoles : List String :=
  ["Software Engineer", "Data Scientist", "Project Manager", "Developer",
   "Analyst", "Manager", "Director", "Lead", "Senior", "Junior"]

/-- The class [A-Za-z0-9\s&]. -/
def expClassChar (c : Char) : Bool :=
  c.isAlpha || c.isDigit || pySpace c || c = '&'

/-- Case-insensitive literal match returning the consumed source text. -/
def matchCI : List Char → List Char → Option (List Char × List Char)
  | [], s => some ([], s)
  | _ :: _, [] => none
  | l :: lt, c :: t =>
    if l.toLower = c.toLower then
      (matchCI lt t).map (fun mr => (c :: mr.1, mr.2))
    else none

/-- First role alternative that matches literally at this position. -/
def tryRoles : List String → List Char → Option (List Char × List Char)
  | [], _ => none
  | lit :: more, s =>
    match matchCI lit.data s with
    | some r => some r
    | none => tryRoles more s

/-- The part of pattern 1 after a successfully matched role:
\s+at\s+([A-Za-z0-9\s&]+). -/
def expAfterRole (roleTxt r0 : List Char) : Option (MRes (String × String)) :=
  let sp1 := r0.takeWhile pySpace
  if sp1.isEmpty then none
  else
    match matchCI ['a', 't'] (r0.dropWhile pySpace) with
    | none => none
    | some (_, r2) =>
      let sp2 := r2.takeWhile pySpace
      if sp2.isEmpty then none
      else
        let r3 := r2.dropWhile pySpace
        let comp := r3.takeWhile expClassChar
        if comp.isEmpty = false then
          some ⟨(roleTxt.asString, comp.asString), comp.getLastD ' ',
                r3.dropWhile expClassChar⟩
        else if 2 ≤ sp2.length then
          some ⟨(roleTxt.asString, [sp2.getLastD ' '].asString), sp2.getLastD ' ', r3⟩
        else none

/-- Pattern 1 attempt at the current position, role alternatives in order,
falling through to the next alternative when the rest of the pattern fails. -/
def expTryRoles1 : List String → List Char → Option (MRes (String × String))
  | [], _ => none
  | lit :: more, s =>
    match matchCI lit.data s with
    | some (roleTxt, r0) =>
      match expAfterRole roleTxt r0 with
      | some res => some res
      | none => expTryRoles1 more s
    | none => expTryRoles1 more s

def matchExp1At (_prev : Option Char) (s : List Char) : Option (MRes (String × String)) :=
  expTryRoles1 expRoles s

/-- Pattern 2 attempt at the current position. -/
def matchExp2At (_prev : Option Char) (s : List Char) : Option (MRes (String × String)) :=
  let comp := s.takeWhile expClassChar
  if comp.isEmpty then none
  else
    match s.dropWhile expClassChar with
    | d :: r2 =>
      if d = '-' || d = '–' then
        match tryRoles expRoles (r2.dropWhile pySpace) with
        | some (roleTxt, r4) =>
          some ⟨(comp.asString, roleTxt.asString), roleTxt.getLastD ' ', r4⟩
        | none => none
      else none
    | [] => none

/-- findall of experience pattern 1 over a text. -/
def findExp1 (text : List Char) : List (String × String) := findAll matchExp1At text

/-- findall of experience pattern 2 over a text. -/
def findExp2 (text : List Char) : List (String × String) := findAll matchExp2At text

/-- The experience entries appended by _extract_with_regex: all matches of
pattern 1 then all matches of pattern 2, each unpacked positionally as
(role, company) — note that pattern 2 captures the company text in its first
group, so its fields arrive swapped — with both fields stripped. -/
def expEntriesOf (text : String) : List ExperienceEntry :=
  (findExp1 text.data ++ findExp2 text.data).map
    (fun rc => ⟨(pyStrip rc.1.data).asString, (pyStrip rc.2.data).asString⟩)

/-! ## _extract_with_regex and extract_entities -/

/-- _extract_with_regex from document_parser.py: email and phone overwrite
their field only when a match exists, the skill list is recomputed and
assigned, experience entries are appended, and the education list is
overwritten only when at least one keyword was found.  The five steps touch
disjoint fields, so the sequential mutation is written as one record
update. -/
def extract_with_regex (text : String) (e : Entities) : Entities :=
  { e with
    email := match findEmails text.data with
             | m :: _ => some m
             | [] => e.email,
    phone := match phoneOf text.data with
             | some p => some p
             | none => e.phone,
    skills := removeDups (foundSkills text),
    experience := e.experience ++ expEntriesOf text,
    education := if (foundEducation text).isEmpty then e.education
                 else foundEducation text }

/-- The observable behaviour of the two learned recognition sources for one
call: absent (the model failed to load), throwing, or returning a list of
tagged spans. -/
structure RecognizerConfig where
  ner : Option (Except Unit (List NerEntity))
  spacy : Option (Except Unit (List SpacyEnt))

/-- The HuggingFace step of the try block of extract_entities; an error
carries the entity state at the throw point. -/
def tryNer (cfg : RecognizerConfig) (e : Entities) : Except Entities Entities :=
  match cfg.ner with
  | none => Except.ok e
  | some (Except.error _) => Except.error e
  | some (Except.ok rs) => Except.ok (process_ner_results rs e)

/-- The spaCy step of the try block of extract_entities. -/
def trySpacy (cfg : RecognizerConfig) (e : Entities) : Except Entities Entities :=
  match cfg.spacy with
  | none => Except.ok e
  | some (Except.error _) => Except.error e
  | some (Except.ok rs) => Except.ok (process_spacy_results rs e)

/-- extract_entities from document_parser.py: the two learned sources run
inside a try block over the shared accumulator; any exception falls into the
handler, which runs the regex extraction over the state accumulated so far;
on the normal path the regex extraction is the last step of the try block. -/
def extract_entities (cfg : RecognizerConfig) (text : String) : Entities :=
  match tryNer cfg {} with
  | Except.error e => extract_with_regex text e
  | Except.ok e1 =>
    match trySpacy cfg e1 with
    | Except.error e => extract_with_regex text e
    | Except.ok e2 => extract_with_regex text e2

/-- Merging the fragments of the three sources (in source priority order:
HuggingFace NER, spaCy, regex matchers) into an entity record; this is the
non-throwing path of extract_entities started from an arbitrary record, the
operation the reconciliation claims quantify over. -/
def mergeFragments (ns : List NerEntity) (ss : List SpacyEnt) (text : String)
    (e : Entities) : Entities :=
  extract_with_regex text (process_spacy_results ss (process_ner_results ns e))

/-- The entity state the final regex extraction runs on, for each outcome of
the learned sources. -/
def preEntities (cfg : RecognizerConfig) : Entities :=
  match cfg.ner with
  | some (Except.error _) => {}
  | none =>
    match cfg.spacy with
    | some (Except.error _) => {}
    | none => {}
    | some (Except.ok ss) => process_spacy_results ss {}
  | some (Except.ok ns) =>
    match cfg.spacy with
    | some (Except.error _) => process_ner_results ns {}
    | none => process_ner_results ns {}
    | some (Except.ok ss) => process_spacy_results ss (process_ner_results ns {})

/-! ## Content extraction: formats, strategies, cascades -/

inductive FileFormat
  | pdf
  | docx
  | plainText
deriving DecidableEq, Repr

/-- The dispatch of extract_content: substring containment tests on the
declared media type, in source order. -/
def detectFormat (t : String) : Option FileFormat :=
  if strContains "application/pdf" t then some FileFormat.pdf
  else if strContains "wordprocessingml" t || strContains "docx" t then
    some FileFormat.docx
  else if strContains "text/plain" t then some FileFormat.plainText
  else none

/-- Observable behaviour of one PDF backend pass: the page texts produced
before control left the loop (extract_text may return None), and whether the
pass raised. -/
structure PdfBehavior where
  pages : List (Option String)
  throws : Bool
deriving DecidableEq, Repr

/-- The page accumulation loop shared by both PDF strategies: truthy page
text is appended followed by a newline. -/
def appendPages (init : String) (ps : List (Option String)) : String :=
  ps.foldl (fun acc pg =>
    match pg with
    | some s => if s = "" then acc else acc ++ s ++ "\n"
    | none => acc) init

/-- _extract_from_pdf from document_parser.py: the pdfplumber text is
returned if that pass did not raise and the text has non-whitespace content;
otherwise the PyPDF2 pass appends onto the text accumulated so far and its
result is returned as-is — even when empty — unless PyPDF2 raises, in which
case a fixed single-message exception is raised. -/
def extract_from_pdf (plumber pypdf : PdfBehavior) : Except String String :=
  let text1 := appendPages "" plumber.pages
  if plumber.throws = false ∧ pyStrip text1.data ≠ [] then Except.ok text1
  else if pypdf.throws then Except.error "Could not extract text from PDF"
  else Except.ok (appendPages text1 pypdf.pages)

/-- Observable behaviour of the DOCX backend: paragraph texts, table cell
texts (tables of rows of cells), and an optional raised exception message. -/
structure DocxBehavior where
  paragraphs : List String
  tables : List (List (List String))
  throwMsg : Option String
deriving DecidableEq, Repr

/-- _extract_from_docx from document_parser.py: paragraphs with non-blank
text each followed by a newline, then table cells with non-blank text each
followed by a space, with a newline after every row. -/
def extract_from_docx (d : DocxBehavior) : Except String String :=
  match d.throwMsg with
  | some m => Except.error ("DOCX extraction failed: " ++ m)
  | none =>
    let t1 := d.paragraphs.foldl
      (fun acc p => if pyStrip p.data = [] then acc else acc ++ p ++ "\n") ""
    Except.ok (d.tables.foldl (fun acc tb =>
      tb.foldl (fun acc2 row =>
        (row.foldl (fun acc3 cell =>
          if pyStrip cell.data = [] then acc3 else acc3 ++ cell ++ " ") acc2)
        ++ "\n") acc) t1)

/-! ## Plain-text extraction: the encoding cascade -/

/-- A UTF-8 continuation byte. -/
def utf8Cont (b : Nat) : Bool := 0x80 ≤ b && b ≤ 0xBF

/-- Strict decoding of one UTF-8 scalar from the head of a byte list,
rejecting overlong forms, surrogates and values beyond U+10FFFF, as the
strict utf-8 codec does. -/
def utf8DecodeOne : List Nat → Option (Nat × List Nat)
  | [] => none
  | b :: t =>
    if b ≤ 0x7F then some (b, t)
    else if 0xC2 ≤ b && b ≤ 0xDF then
      match t with
      | c :: t2 =>
        if utf8Cont c then some ((b - 0xC0) * 0x40 + (c - 0x80), t2) else none
      | [] => none
    else if 0xE0 ≤ b && b ≤ 0xEF then
      match t with
      | c1 :: c2 :: t2 =>
        let lo1 := if b = 0xE0 then 0xA0 else 0x80
        let hi1 := if b = 0xED then 0x9F else 0xBF
        if lo1 ≤ c1 && c1 ≤ hi1 && utf8Cont c2 then
          some ((b - 0xE0) * 0x1000 + (c1 - 0x80) * 0x40 + (c2 - 0x80), t2)
        else none
      | _ => none
    else if 0xF0 ≤ b && b ≤ 0xF4 then
      match t with
      | c1 :: c2 :: c3 :: t2 =>
        let lo1 := if b = 0xF0 then 0x90 else 0x80
        let hi1 := if b = 0xF4 then 0x8F else 0xBF
        if lo1 ≤ c1 && c1 ≤ hi1 && utf8Cont c2 && utf8Cont c3 then
          some ((b - 0xF0) * 0x40000 + (c1 - 0x80) * 0x1000
                + (c2 - 0x80) * 0x40 + (c3 - 0x80), t2)
        else none
      | _ => none
    else none

/-- Strict UTF-8 decoding of a byte list into code points; the fuel is the
number of bytes, which suffices since every scalar consumes at least one. -/
def utf8DecodeFuel : Nat → List Nat → Option (List Nat)
  | _, [] => some []
  | 0, _ :: _ => none
  | f + 1, b :: t =>
    match utf8DecodeOne (b :: t) with
    | some (cp, rest) => (utf8DecodeFuel f rest).map (fun r => cp :: r)
    | none => none

def utf8Decode (l : List Nat) : Option (List Nat) := utf8DecodeFuel l.length l

/-- latin-1: every byte maps to the code point of the same value. -/
def latin1Decode (l : List Nat) : List Nat := l

/-- cp1252: the 0x80–0x9F block is remapped, five bytes are undefined and
make the strict codec raise, everything else is identity. -/
def cp1252Map (b : Nat) : Option Nat :=
  if b = 0x80 then some 0x20AC else if b = 0x82 then some 0x201A
  else if b = 0x83 then some 0x0192 else if b = 0x84 then some 0x201E
  else if b = 0x85 then some 0x2026 else if b = 0x86 then some 0x2020
  else if b = 0x87 then some 0x2021 else if b = 0x88 then some 0x02C6
  else if b = 0x89 then some 0x2030 else if b = 0x8A then some 0x0160
  else if b = 0x8B then some 0x2039 else if b = 0x8C then some 0x0152
  else if b = 0x8E then some 0x017D else if b = 0x91 then some 0x2018
  else if b = 0x92 then some 0x2019 else if b = 0x93 then some 0x201C
  else if b = 0x94 then some 0x201D else if b = 0x95 then some 0x2022
  else if b = 0x96 then some 0x2013 else if b = 0x97 then some 0x2014
  else if b = 0x98 then some 0x02DC else if b = 0x99 then some 0x2122
  else if b = 0x9A then some 0x0161 else if b = 0x9B then some 0x203A
  else if b = 0x9C then some 0x0153 else if b = 0x9E then some 0x017E
  else if b = 0x9F then some 0x0178
  else if b = 0x81 || b = 0x8D || b = 0x8F || b = 0x90 || b = 0x9D then none
  else some b

def cp1252Decode (l : List Nat) : Option (List Nat) := l.mapM cp1252Map

/-- iso-8859-1 is the same total byte-to-code-point map as latin-1. -/
def iso8859_1Decode (l : List Nat) : List Nat := l

/-- UTF-8 decoding with undecodable bytes dropped, the behaviour of
errors=ignore; proved unreachable in the cascade since latin-1 never fails. -/
def utf8IgnoreFuel : Nat → List Nat → List Nat
  | _, [] => []
  | 0, _ :: _ => []
  | f + 1, b :: t =>
    match utf8DecodeOne (b :: t) with
    | some (cp, rest) => cp :: utf8IgnoreFuel f rest
    | none => utf8IgnoreFuel f t

/-- The encoding priority list of _extract_from_txt. -/
def txtDecoders : List (List Nat → Option (List Nat)) :=
  [utf8Decode,
   fun b => some (latin1Decode b),
   cp1252Decode,
   fun b => some (iso8859_1Decode b)]

/-- First decoder in the priority list that succeeds. -/
def firstDecode : List (List Nat → Option (List Nat)) → List Nat → Option (List Nat)
  | [], _ => none
  | d :: ds, b =>
    match d b with
    | some r => some r
    | none => firstDecode ds b

/-- _extract_from_txt from document_parser.py, as code points: the first
encoding in the priority list that decodes without error wins; were all to
fail, the permissive decode would be used. -/
def extract_from_txt (b : List Nat) : List Nat :=
  match firstDecode txtDecoders b with
  | some r => r
  | none => utf8IgnoreFuel b.length b

/-- The decoded plain text as a string. -/
def extract_from_txt_str (b : List Nat) : String :=
  ((extract_from_txt b).map Char.ofNat).asString

/-! ## extract_content -/

/-- The per-request inputs of extract_content: the declared media type and
the observable behaviour of each backend. -/
structure UploadedFile where
  type : String
  pdfplumber : PdfBehavior
  pypdf2 : PdfBehavior
  docx : DocxBehavior
  txtBytes : List Nat

/-- extract_content from document_parser.py: substring dispatch on the
declared media type; an unmatched type raises ValueError; every exception is
caught and re-raised with the fixed prefix. -/
def extract_content (f : UploadedFile) : Except String String :=
  let inner : Except String String :=
    match detectFormat f.type with
    | some FileFormat.pdf => extract_from_pdf f.pdfplumber f.pypdf2
    | some FileFormat.docx => extract_from_docx f.docx
    | some FileFormat.plainText => Except.ok (extract_from_txt_str f.txtBytes)
    | none => Except.error ("Unsupported file type: " ++ f.type)
  match inner with
  | Except.ok s => Except.ok s
  | Except.error m => Except.error ("❌ Content extraction failed: " ++ m)

/-! ## validators.py -/

/-- allowed_types from validate_file_upload. -/
def allowed_types : List String :=
  ["application/pdf",
   "application/vnd.openxmlformats-officedocument.wordprocessingml.document",
   "text/plain"]

structure FileValidationResult where
  valid : Bool
  errors : List String
  warnings : List String
deriving DecidableEq, Repr

/-- validate_file_upload from validators.py, over the byte length, declared
type, and file name. -/
def validate_file_upload (fileDataLen : Nat) (fileType fileName : String) :
    FileValidationResult :=
  let errs :=
    (if 10 * 1024 * 1024 < fileDataLen then ["File size exceeds 10MB limit"] else [])
    ++ (if fileType ∈ allowed_types then [] else ["Unsupported file type: " ++ fileType])
    ++ (if fileName = "" ∨ pyStrip fileName.data = [] then ["Invalid file name"] else [])
    ++ (if fileDataLen = 0 then ["File appears to be empty"] else [])
  ⟨errs.isEmpty, errs, []⟩

/-- The five resume section keywords of validate_content_extraction. -/
def resume_sections : List String :=
  ["experience", "education", "skills", "summary", "objective"]

def countNewlines (s : String) : Nat := s.data.countP (fun c => c = '\n')

/-- re.search of the email pattern, used twice by the validator. -/
def hasEmailSearch (s : String) : Bool := (findEmails s.data).isEmpty = false

/-- The validator phone pattern \b\d\x7b3\x7d[-.]?\d\x7b3\x7d[-.]?\d\x7b4\x7d\b:
optional separators explored present-first with the trailing \b checked last. -/
def matchPhoneVAt (prev : Option Char) (s : List Char) : Option (MRes String) :=
  if atBoundary prev s.head? then
    match takeDigits 3 s with
    | none => none
    | some (d1, s1) =>
      (flatMapL (opt1 (fun c => c = '-' || c = '.') s1) (fun p1 =>
        match takeDigits 3 p1.2 with
        | none => []
        | some (d2, s2) =>
          flatMapL (opt1 (fun c => c = '-' || c = '.') s2) (fun p2 =>
            match takeDigits 4 p2.2 with
            | none => []
            | some (d3, s3) =>
              if atBoundary (some (d3.getLastD '0')) s3.head? then
                [MRes.mk (d1 ++ p1.1 ++ d2 ++ p2.1 ++ d3).asString (d3.getLastD '0') s3]
              else []))).head?
  else none

def hasPhoneSearch (s : String) : Bool :=
  ((findAll matchPhoneVAt s.data : List String)).isEmpty = false

structure ContentValidationResult where
  valid : Bool
  quality_score : Nat
  issues : List String
  suggestions : List String
deriving DecidableEq, Repr

/-- The number of section keywords present case-insensitively. -/
def foundSectionCount (content : String) : Nat :=
  (resume_sections.filter (fun sec => strContains (strToLower sec) (strToLower content))).length

/-- validate_content_extraction from validators.py. -/
def validate_content_extraction (content : String) : ContentValidationResult :=
  if content = "" ∨ pyStrip content.data = [] then
    ⟨false, 0, ["No content extracted from file"], []⟩
  else
    let q1 := if 100 < content.length then 20 else 0
    let q2 := foundSectionCount content * 15
    let q3 := if hasEmailSearch content then 15 else 0
    let q4 := if hasPhoneSearch content then 10 else 0
    let q5 := if content.data.contains '•' || content.data.contains '*'
                 || 5 < countNewlines content then 10 else 0
    let score := min (q1 + q2 + q3 + q4 + q5) 100
    let sugg :=
      (if score < 50 then ["Content quality seems low - ensure the file is not corrupted"] else [])
      ++ (if foundSectionCount content < 2 then ["Consider using a more structured resume format"] else [])
      ++ (if hasEmailSearch content then [] else ["Make sure your contact email is clearly visible"])
    ⟨true, score, [], sugg⟩

/-- Modelled from the spec (section 4.5): the completeness score as the
clamped sum of the five independent weighted checks, written exactly as the
specification lists them, for comparison against the implementation. -/
def specCompletenessScore (content : String) : Nat :=
  min ((if 100 < content.length then 20 else 0)
       + 15 * foundSectionCount content
       + (if hasEmailSearch content then 15 else 0)
       + (if hasPhoneSearch content then 10 else 0)
       + (if content.data.contains '•' || content.data.contains '*'
             || 5 < countNewlines content then 10 else 0)) 100

/-! ## Structural lemmas about the pipeline -/

/-- Organizations contributed by the HuggingFace source. -/
def nerOrgsOf (ns : List NerEntity) : List String :=
  (ns.filter (fun n => n.entity_group = "ORG")).map (fun n => n.word)

/-- Locations contributed by the HuggingFace source. -/
def nerLocsOf (ns : List NerEntity) : List String :=
  (ns.filter (fun n => n.entity_group = "LOC")).map (fun n => n.word)

/-- The first personal name contributed by the HuggingFace source. -/
def nerNameOf (ns : List NerEntity) : Option String :=
  ((ns.filter (fun n => n.entity_group = "PER")).map (fun n => n.word)).head?

/-- Organizations contributed by the spaCy source. -/
def spacyOrgsOf (ss : List SpacyEnt) : List String :=
  (ss.filter (fun s => s.label = "ORG")).map (fun s => s.text)

/-- Locations contributed by the spaCy source. -/
def spacyLocsOf (ss : List SpacyEnt) : List String :=
  (ss.filter (fun s => s.label = "GPE" || s.label = "LOC")).map (fun s => s.text)

/-- The first personal name contributed by the spaCy source. -/
def spacyNameOf (ss : List SpacyEnt) : Option String :=
  ((ss.filter (fun s => s.label = "PERSON")).map (fun s => s.text)).head?

theorem process_ner_results_eq (ns : List NerEntity) (e : Entities) :
    process_ner_results ns e =
      { e with
        name := match e.name with
                | some n => some n
                | none => nerNameOf ns,
        organizations := e.organizations ++ nerOrgsOf ns,
        locations := e.locations ++ nerLocsOf ns } := by
  induction ns generalizing e with
  | nil =>
    cases he : e.name <;>
      simp [process_ner_results, nerNameOf, nerOrgsOf, nerLocsOf, he] <;>
      rw [← he]
  | cons n t ih =>
    have step : process_ner_results (n :: t) e = process_ner_results t (processNerOne e n) := rfl
    rw [step, ih]
    by_cases h1 : n.entity_group = "PER"
    · cases he : e.name <;>
        simp [processNerOne, h1, he, nerNameOf, nerOrgsOf, nerLocsOf, List.filter_cons]
    · by_cases h2 : n.entity_group = "ORG"
      · cases he : e.name <;>
          simp [processNerOne, h1, h2, he, nerNameOf, nerOrgsOf, nerLocsOf, List.filter_cons]
      · by_cases h3 : n.entity_group = "LOC"
        · cases he : e.name <;>
            simp [processNerOne, h1, h2, h3, he, nerNameOf, nerOrgsOf, nerLocsOf,
              List.filter_cons]
        · cases he : e.name <;>
            simp [processNerOne, h1, h2, h3, he, nerNameOf, nerOrgsOf, nerLocsOf,
              List.filter_cons]

theorem process_spacy_results_eq (ss : List SpacyEnt) (e : Entities) :
    process_spacy_results ss e =
      { e with
        name := match e.name with
                | some n => some n
                | none => spacyNameOf ss,
        organizations := e.organizations ++ spacyOrgsOf ss,
        locations := e.locations ++ spacyLocsOf ss } := by
  induction ss generalizing e with
  | nil =>
    cases he : e.name <;>
      simp [process_spacy_results, spacyNameOf, spacyOrgsOf, spacyLocsOf, he] <;>
      rw [← he]
  | cons n t ih =>
    have step : process_spacy_results (n :: t) e = process_spacy_results t (processSpacyOne e n) := rfl
    rw [step, ih]
    by_cases h1 : n.label = "PERSON"
    · cases he : e.name <;>
        simp [processSpacyOne, h1, he, spacyNameOf, spacyOrgsOf, spacyLocsOf, List.filter_cons]
    · by_cases h2 : n.label = "ORG"
      · cases he : e.name <;>
          simp [processSpacyOne, h1, h2, he, spacyNameOf, spacyOrgsOf, spacyLocsOf,
            List.filter_cons]
      · by_cases h3 : n.label = "GPE" ∨ n.label = "LOC"
        · cases he : e.name <;>
            rcases h3 with h3 | h3 <;>
              simp [processSpacyOne, h1, h2, h3, he, spacyNameOf, spacyOrgsOf, spacyLocsOf,
                List.filter_cons]
        · push_neg at h3
          cases he : e.name <;>
            simp [processSpacyOne, h1, h2, h3.1, h3.2, he, spacyNameOf, spacyOrgsOf,
              spacyLocsOf, List.filter_cons]

/-- Every outcome of the learned sources leaves the accumulator in the shape
of the two processing passes over some fragment lists. -/
theorem preEntities_shape (cfg : RecognizerConfig) :
    ∃ ns ss, preEntities cfg = process_spacy_results ss (process_ner_results ns {}) := by
  rcases cfg with ⟨ner, sp⟩
  cases ner with
  | none =>
    cases sp with
    | none => exact ⟨[], [], rfl⟩
    | some x =>
      cases x with
      | ok ss => exact ⟨[], ss, rfl⟩
      | error u => exact ⟨[], [], rfl⟩
  | some x =>
    cases x with
    | error u => exact ⟨[], [], rfl⟩
    | ok ns =>
      cases sp with
      | none => exact ⟨ns, [], rfl⟩
      | some y =>
        cases y with
        | ok ss => exact ⟨ns, ss, rfl⟩
        | error u => exact ⟨ns, [], rfl⟩

/-- extract_entities always ends by running the regex extraction over the
state accumulated before the first failure (or over the fully processed
state on the normal path). -/
theorem extract_entities_eq (cfg : RecognizerConfig) (text : String) :
    extract_entities cfg text = extract_with_regex text (preEntities cfg) := by
  rcases cfg with ⟨ner, sp⟩
  cases ner with
  | none =>
    cases sp with
    | none => rfl
    | some x => cases x with
      | ok ss => rfl
      | error u => rfl
  | some x =>
    cases x with
    | error u => rfl
    | ok ns =>
      cases sp with
      | none => rfl
      | some y => cases y with
        | ok ss => rfl
        | error u => rfl

theorem preEntities_skills (cfg : RecognizerConfig) : (preEntities cfg).skills = [] := by
  obtain ⟨ns, ss, h⟩ := preEntities_shape cfg
  rw [h, process_spacy_results_eq, process_ner_results_eq]

theorem preEntities_email (cfg : RecognizerConfig) : (preEntities cfg).email = none := by
  obtain ⟨ns, ss, h⟩ := preEntities_shape cfg
  rw [h, process_spacy_results_eq, process_ner_results_eq]

theorem preEntities_experience (cfg : RecognizerConfig) :
    (preEntities cfg).experience = [] := by
  obtain ⟨ns, ss, h⟩ := preEntities_shape cfg
  rw [h, process_spacy_results_eq, process_ner_results_eq]

/-! ## Duplicate removal on a duplicate-free list is the identity -/

theorem removeDups_aux (l acc : List String)
    (hp : l.Pairwise (fun a b => a ≠ b)) (hd : ∀ x ∈ l, x ∉ acc) :
    l.foldl (fun acc x => if x ∈ acc then acc else acc ++ [x]) acc = acc ++ l := by
  induction l generalizing acc with
  | nil => simp
  | cons x t ih =>
    have hx : x ∉ acc := hd x (List.mem_cons_self x t)
    have hstep : (if x ∈ acc then acc else acc ++ [x]) = acc ++ [x] := if_neg hx
    have ht : ∀ y ∈ t, y ∉ acc ++ [x] := by
      intro y hy
      simp only [List.mem_append, List.mem_singleton]
      rintro (h | h)
      · exact hd y (List.mem_cons_of_mem x hy) h
      · exact (List.rel_of_pairwise_cons hp hy) h.symm
    calc (x :: t).foldl (fun acc x => if x ∈ acc then acc else acc ++ [x]) acc
        = t.foldl (fun acc x => if x ∈ acc then acc else acc ++ [x]) (acc ++ [x]) := by
          rw [List.foldl_cons, hstep]
      _ = (acc ++ [x]) ++ t := ih (acc ++ [x]) (List.Pairwise.of_cons hp) ht
      _ = acc ++ x :: t := by simp

theorem removeDups_eq_self (l : List String) (hp : l.Pairwise (fun a b => a ≠ b)) :
    removeDups l = l := by
  have := removeDups_aux l [] hp (by intro x _ h; simp at h)
  simpa [removeDups] using this

/-- No two skill keywords agree case-insensitively. -/
theorem skill_keywords_lower_pairwise :
    skill_keywords.Pairwise (fun a b => strToLower a ≠ strToLower b) := by decide

theorem foundSkills_pairwise (text : String) :
    (foundSkills text).Pairwise (fun a b => strToLower a ≠ strToLower b) :=
  List.Pairwise.sublist (List.filter_sublist skill_keywords) skill_keywords_lower_pairwise

theorem foundSkills_nodup (text : String) :
    (foundSkills text).Pairwise (fun a b => a ≠ b) :=
  (foundSkills_pairwise text).imp (fun h he => h (congrArg strToLower he))

theorem extract_with_regex_skills (text : String) (e : Entities) :
    (extract_with_regex text e).skills = foundSkills text := by
  have : (extract_with_regex text e).skills = removeDups (foundSkills text) := rfl
  rw [this, removeDups_eq_self _ (foundSkills_nodup text)]

/-! ## Claim C5: plain-text decoding cascade -/

/-- Claim C5: for every byte sequence, plain-text extraction returns the
decoding under the first encoding of the priority list [utf-8, latin-1,
cp1252, iso-8859-1] that decodes without error, and it never raises: the
first succeeding decoder always exists (latin-1 is total), so the result is
exactly that first success.  The permissive errors=ignore fallback in the
source is thereby unreachable, which makes the claim about it vacuously
true. -/
theorem C5_txt_first_encoding (b : List Nat) :
    firstDecode txtDecoders b = some (extract_from_txt b) := by
  cases h : utf8Decode b with
  | some r => simp [extract_from_txt, firstDecode, txtDecoders, h]
  | none => simp [extract_from_txt, firstDecode, txtDecoders, h, latin1Decode]

/-! ## Claim C7: email extraction is first-match-wins -/

/-- Claim C7 counterexample: a text that contains jane@example.com but whose
first email match is an earlier address yields that earlier address, not
jane@example.com, so the universally quantified particular in the claim is
false. -/
theorem C7_counterexample :
    strContains "jane@example.com" "bob@x.com jane@example.com" = true ∧
    (extract_entities ⟨none, none⟩ "bob@x.com jane@example.com").email = some "bob@x.com" ∧
    (extract_entities ⟨none, none⟩ "bob@x.com jane@example.com").email ≠
      some "jane@example.com" := by
  refine ⟨by decide, by decide, by decide⟩

/-- Claim C7 amended: the record email field always equals the first match of
the email regex over the text (none when there is no match); a text
containing jane@example.com yields that address exactly when it is the first
match. -/
theorem C7_amended (cfg : RecognizerConfig) (text : String) :
    (extract_entities cfg text).email = (findEmails text.data).head? := by
  rw [extract_entities_eq]
  show (match findEmails text.data with
        | m :: _ => some m
        | [] => (preEntities cfg).email) = (findEmails text.data).head?
  rw [preEntities_email]
  cases h : findEmails text.data <;> simp

/-! ## Claim C2: experience entries are not deduplicated -/

/-- Claim C2 counterexample: a text whose role-at-company pattern matches
twice with the identical pair produces two identical experience entries, so
the entries are not unique by the normalized (role, company) key. -/
theorem C2_counterexample :
    (extract_entities ⟨none, none⟩ "Developer at Acme. Developer at Acme.").experience =
      [⟨"Developer", "Acme"⟩, ⟨"Developer", "Acme"⟩] := by decide

/-- Claim C2 amended: the experience list of the merged record is exactly the
list of regex matches of the two experience patterns in pattern order, with
both fields whitespace-trimmed, and with no deduplication of any kind —
repeated matches are all retained. -/
theorem C2_amended (cfg : RecognizerConfig) (text : String) :
    (extract_entities cfg text).experience = expEntriesOf text := by
  rw [extract_entities_eq]
  show (preEntities cfg).experience ++ expEntriesOf text = expEntriesOf text
  rw [preEntities_experience, List.nil_append]

/-! ## Claim C8: entity recognition never aborts -/

/-- Claim C8: for every outcome of the two learned recognition sources
(unavailable, throwing, or returning spans), extract_entities returns a
complete record: it is a total function whose result is always the
deterministic regex extraction applied over whatever state the learned
sources left behind, so the regex source always runs and no exception
escapes. -/
theorem C8_no_abort (cfg : RecognizerConfig) (text : String) :
    ∃ e, extract_entities cfg text = extract_with_regex text e :=
  ⟨preEntities cfg, extract_entities_eq cfg text⟩

/-! ## Claim C9: skills are case-insensitively unique -/

/-- Claim C9: in every merged record no two skill entries agree
case-insensitively, and a text contributing both casings Python and python
yields exactly one skill, carrying the casing of the single fragment
occurrence (the dictionary entry) — the learned sources never contribute
skills, so the dictionary occurrence is the first and only one. -/
theorem C9_skills_case_insensitive_unique :
    (∀ cfg text, (extract_entities cfg text).skills.Pairwise
        (fun a b => strToLower a ≠ strToLower b)) ∧
    (extract_entities ⟨none, none⟩ "Python and python").skills = ["Python"] := by
  constructor
  · intro cfg text
    rw [extract_entities_eq, extract_with_regex_skills]
    exact foundSkills_pairwise text
  · decide

/-! ## Claim C10: skills come only from the keyword dictionary -/

/-- Claim C10: a string is a skill of the merged record exactly when it is
one of the 26 dictionary keywords and its lower-cased form occurs in the
lower-cased text — for every outcome of the learned sources, so those
sources never contribute skills and every entry carries the dictionary
casing. -/
theorem C10_skills_dictionary :
    (∀ cfg text s, s ∈ (extract_entities cfg text).skills ↔
        s ∈ skill_keywords ∧ strContains (strToLower s) (strToLower text) = true) ∧
    skill_keywords.length = 26 := by
  constructor
  · intro cfg text s
    rw [extract_entities_eq, extract_with_regex_skills]
    simp [foundSkills, List.mem_filter]
  · rfl

/-! ## Claim C1: the PDF cascade on doubly-empty extractions -/

/-- Claim C1 counterexample: when the layout-aware pass yields only
whitespace and the sequential pass yields nothing, with neither throwing,
PDF extraction returns the whitespace text as a success instead of raising
a fatal error with the recorded failure reasons. -/
theorem C1_counterexample :
    extract_from_pdf ⟨[some "  "], false⟩ ⟨[], false⟩ = Except.ok "  \n" ∧
    pyStrip "  \n".data = [] := ⟨rfl, by decide⟩

/-- Claim C1 amended: PDF extraction raises only when the PyPDF2 pass
throws, and then with the single fixed message — not with the collected
per-strategy failure reasons; whenever PyPDF2 does not throw, extraction
returns successfully, even when every strategy produced only empty or
whitespace text. -/
theorem C1_amended (p q : PdfBehavior) :
    (q.throws = false → ∃ s, extract_from_pdf p q = Except.ok s) ∧
    (q.throws = true →
      (p.throws = true ∨ pyStrip (appendPages "" p.pages).data = []) →
      extract_from_pdf p q = Except.error "Could not extract text from PDF") := by
  constructor
  · intro hq
    unfold extract_from_pdf
    by_cases hc : p.throws = false ∧ pyStrip (appendPages "" p.pages).data ≠ []
    · exact ⟨_, if_pos hc⟩
    · rw [if_neg hc, if_neg (by simp [hq])]
      exact ⟨_, rfl⟩
  · intro hq hp
    have hc : ¬ (p.throws = false ∧ pyStrip (appendPages "" p.pages).data ≠ []) := by
      rcases hp with h | h
      · rintro ⟨h1, _⟩
        rw [h] at h1
        exact absurd h1 (by decide)
      · rintro ⟨_, h2⟩
        exact h2 h
    unfold extract_from_pdf
    rw [if_neg hc, if_pos hq]

/-- Claim C1 amended, witness: a successful PDF with non-throwing PyPDF2, and
the fixed-message error when the plumber pass throws and PyPDF2 throws. -/
theorem C1_amended_witness :
    (∃ s, extract_from_pdf ⟨[some "x"], false⟩ ⟨[], false⟩ = Except.ok s) ∧
    extract_from_pdf ⟨[], true⟩ ⟨[], true⟩ =
      Except.error "Could not extract text from PDF" :=
  ⟨(C1_amended ⟨[some "x"], false⟩ ⟨[], false⟩).1 rfl,
   (C1_amended ⟨[], true⟩ ⟨[], true⟩).2 rfl (Or.inl rfl)⟩

/-! ## Claim C3: media-type dispatch is substring-based, not 1:1 -/

/-- Claim C3 counterexample: a declared media type that is none of the three
accepted MIME types still selects the PDF format and extraction proceeds
successfully, because extract_content dispatches on substring containment. -/
theorem C3_counterexample :
    detectFormat "application/pdfx" = some FileFormat.pdf ∧
    "application/pdfx" ∉ allowed_types ∧
    extract_content ⟨"application/pdfx", ⟨[some "hello"], false⟩, ⟨[], false⟩,
        ⟨[], [], none⟩, []⟩ = Except.ok "hello\n" := by
  refine ⟨by decide, by decide, rfl⟩

/-- Claim C3 amended: a declared media type matching none of the dispatch
substrings fails before any extraction strategy runs, with the wrapped
unsupported-type message (a generic exception, not a dedicated error type);
the exact three-MIME-type 1:1 gate exists only in validate_file_upload,
whose result is valid only for a type in the allowed list. -/
theorem C3_amended :
    (∀ f : UploadedFile, detectFormat f.type = none →
        extract_content f =
          Except.error ("❌ Content extraction failed: " ++ ("Unsupported file type: " ++ f.type))) ∧
    (∀ n t m, (validate_file_upload n t m).valid = true → t ∈ allowed_types) := by
  constructor
  · intro f h
    simp [extract_content, h]
  · intro n t m h
    by_contra hmem
    simp only [validate_file_upload, List.isEmpty_iff, List.append_eq_nil] at h
    exact absurd h.1.1.2 (by simp [hmem])

/-- Claim C3 amended, witness: an image media type is rejected with the
wrapped message, and a valid upload has its type in the allowed list. -/
theorem C3_amended_witness :
    extract_content ⟨"image/png", ⟨[], false⟩, ⟨[], false⟩, ⟨[], [], none⟩, []⟩ =
      Except.error ("❌ Content extraction failed: " ++ ("Unsupported file type: " ++ "image/png")) ∧
    "text/plain" ∈ allowed_types :=
  ⟨C3_amended.1 ⟨"image/png", ⟨[], false⟩, ⟨[], false⟩, ⟨[], [], none⟩, []⟩ (by decide),
   C3_amended.2 10 "text/plain" "r.txt" (by decide)⟩

/-! ## Claim C6: the completeness score formula -/

/-- Claim C6 counterexample: on a 101-space document the implementation
short-circuits to score 0 while the claimed sum of weighted checks yields 20
for the length bonus, so the formula does not hold for every input text. -/
theorem C6_counterexample :
    (validate_content_extraction (String.mk (List.replicate 101 ' '))).quality_score = 0 ∧
    specCompletenessScore (String.mk (List.replicate 101 ' ')) = 20 := by
  refine ⟨by decide, by decide⟩

/-- Claim C6 amended: for every input whose stripped content is non-empty the
completeness score equals the clamped sum of the five independent weighted
checks; blank input short-circuits to score 0.  A document with all five
section words, a valid email, a valid phone and bullet markers scores
exactly 100, and a 40-character document with none of the signals scores 0. -/
theorem C6_amended :
    (∀ content : String, pyStrip content.data ≠ [] →
        (validate_content_extraction content).quality_score = specCompletenessScore content) ∧
    (validate_content_extraction
        "experience education skills summary objective\n• a@b.co 123-456-7890").quality_score
      = 100 ∧
    (validate_content_extraction "hello world good morning my name is omar").quality_score = 0 ∧
    "hello world good morning my name is omar".length = 40 := by
  refine ⟨?_, by decide, by decide, by decide⟩
  intro content h
  have hne : ¬ (content = "" ∨ pyStrip content.data = []) := by
    rintro (h1 | h2)
    · rw [h1] at h
      exact h rfl
    · exact h h2
  have hq : (validate_content_extraction content).quality_score =
      min ((if 100 < content.length then 20 else 0)
           + foundSectionCount content * 15
           + (if hasEmailSearch content then 15 else 0)
           + (if hasPhoneSearch content then 10 else 0)
           + (if content.data.contains '•' || content.data.contains '*'
                 || 5 < countNewlines content then 10 else 0)) 100 := by
    unfold validate_content_extraction
    rw [if_neg hne]
  rw [hq, specCompletenessScore, Nat.mul_comm]

/-- Claim C6 amended, witness: the formula instantiated on a concrete
non-blank document. -/
theorem C6_amended_witness :
    pyStrip "abc".data ≠ [] ∧
    (validate_content_extraction "abc").quality_score = specCompletenessScore "abc" :=
  ⟨by decide, C6_amended.1 "abc" (by decide)⟩

/-! ## Claim C4: reconciliation is not idempotent -/

/-- Closed form of one merge pass of the three sources over an arbitrary
starting record. -/
theorem mergeFragments_eq (ns : List NerEntity) (ss : List SpacyEnt)
    (text : String) (e : Entities) :
    mergeFragments ns ss text e =
      { name := match e.name with
                | some n => some n
                | none => match nerNameOf ns with
                          | some n => some n
                          | none => spacyNameOf ss,
        email := match findEmails text.data with
                 | m :: _ => some m
                 | [] => e.email,
        phone := match phoneOf text.data with
                 | some p => some p
                 | none => e.phone,
        skills := foundSkills text,
        experience := e.experience ++ expEntriesOf text,
        education := if (foundEducation text).isEmpty then e.education
                     else foundEducation text,
        projects := e.projects,
        organizations := e.organizations ++ (nerOrgsOf ns ++ spacyOrgsOf ss),
        locations := e.locations ++ (nerLocsOf ns ++ spacyLocsOf ss) } := by
  have hs := removeDups_eq_self (foundSkills text) (foundSkills_nodup text)
  unfold mergeFragments
  rw [process_ner_results_eq, process_spacy_results_eq]
  cases he : e.name <;>
    simp [extract_with_regex, hs, he, List.append_assoc]

/-- Claim C4 counterexample: merging the same fragments a second time into
the already-merged record duplicates the experience entries and the
organization contributed by the statistical source, so the two records
differ. -/
theorem C4_counterexample :
    mergeFragments [⟨"ORG", "Acme"⟩] [] "Developer at Acme."
        (mergeFragments [⟨"ORG", "Acme"⟩] [] "Developer at Acme." {}) ≠
      mergeFragments [⟨"ORG", "Acme"⟩] [] "Developer at Acme." {} := by decide

/-- Claim C4 amended: a repeated merge of the same fragments leaves name,
email, phone, skills, education and projects unchanged, but appends the
regex experience matches and the organization and location contributions of
the learned sources a second time; the merge is therefore idempotent exactly
when those appended lists are all empty. -/
theorem C4_amended (ns : List NerEntity) (ss : List SpacyEnt) (text : String) :
    mergeFragments ns ss text (mergeFragments ns ss text {}) =
      { mergeFragments ns ss text {} with
        organizations := (mergeFragments ns ss text {}).organizations
          ++ (nerOrgsOf ns ++ spacyOrgsOf ss),
        locations := (mergeFragments ns ss text {}).locations
          ++ (nerLocsOf ns ++ spacyLocsOf ss),
        experience := (mergeFragments ns ss text {}).experience
          ++ expEntriesOf text } := by
  rw [mergeFragments_eq ns ss text (mergeFragments ns ss text {}),
    mergeFragments_eq ns ss text ({} : Entities)]
  cases hn : nerNameOf ns <;> cases hm : findEmails text.data <;>
    cases hp : phoneOf text.data <;> cases hed : (foundEducation text).isEmpty <;>
      simp [hn, hm, hp, hed] <;>
        cases hss : spacyNameOf ss <;> simp [hss]

end ResumeParser

